import Mathlib

/-!
Verification development for the lexer + recursive-descent parser pipeline of the
C-compiler-visualizer repository (the `tokenize`/`parse` functions of the Index page).

The embedding works over `List Char` (a JS string is a sequence of characters).  Each
JS regex used by the source is small enough that its `test` semantics is implemented
directly as a decidable Boolean function; comments on each definition record which
regex it implements and why the implementation is equivalent to the backtracking
search.  The parser's shared mutable cursor (`let current = 0`) is threaded through
every parsing function as an explicit `Nat` argument and result.  JS `while` loops are
modelled by recursion driven by a fuel argument; `none` means the fuel ran out (the
source parser can genuinely loop forever, which one of the theorems below exhibits).
-/

set_option maxRecDepth 8000
set_option linter.unusedVariables false
set_option linter.unnecessarySimpa false

/-- Token kinds, mirroring the `TokenType` object of the source. -/
inductive TokenType where
  | PREPROCESSOR
  | KEYWORD
  | IDENTIFIER
  | NUMBER
  | STRING_LITERAL
  | OPERATOR
  | SEPARATOR
  | OPEN_PAREN
  | CLOSE_PAREN
  | OPEN_BRACE
  | CLOSE_BRACE
  | COMMENT
  | UNDEFINED
deriving DecidableEq, Repr

/-- A token: `{ type, value }` as produced by `tokenize`/`classifyLexeme`. -/
structure Token where
  type : TokenType
  value : List Char
deriving DecidableEq, Repr

/-- The JS regex class `\s`, restricted to its ASCII members (the repository's
inputs are ASCII C source text). -/
def isWs (c : Char) : Bool :=
  c = ' ' || c = '\t' || c = '\n' || c = '\r' || c = '\x0b' || c = '\x0c'

/-- `[0-9]`. -/
def isDigitC (c : Char) : Bool := '0' ≤ c && c ≤ '9'

/-- `[a-zA-Z]`. -/
def isAlphaC (c : Char) : Bool := ('a' ≤ c && c ≤ 'z') || ('A' ≤ c && c ≤ 'Z')

/-- The JS regex class `\w`, i.e. `[a-zA-Z0-9_]` (also the lexeme-accumulation class
of the scanner loop). -/
def isWordChar (c : Char) : Bool := isAlphaC c || isDigitC c || c = '_'

/-- `[a-zA-Z_]`, the first-character class of the IDENTIFIER pattern. -/
def isIdentStart (c : Char) : Bool := isAlphaC c || c = '_'

/-- `[0-9A-Fa-f]`. -/
def isHexDigit (c : Char) : Bool :=
  isDigitC c || ('a' ≤ c && c ≤ 'f') || ('A' ≤ c && c ≤ 'F')

/-- `l₁` is a prefix of `l₂` (used for the anchored regex alternatives). -/
def isPre : List Char → List Char → Bool
  | [], _ => true
  | _ :: _, [] => false
  | a :: as, b :: bs => a = b && isPre as bs

/-- The reserved words of the KEYWORD pattern
`\b(int|char|float|double|if|else|for|while|return|void|include|define)\b`. -/
def keywordList : List (List Char) :=
  ["int", "char", "float", "double", "if", "else", "for", "while", "return",
   "void", "include", "define"].map String.toList

/-- Whether one of the keyword alternatives matches starting exactly here with a
word boundary after it.  All keyword characters are word characters, so the
boundary after the occurrence holds iff the next character (if any) is not a
word character. -/
def kwHere (kw l : List Char) : Bool :=
  isPre kw l &&
    (match l.drop kw.length with
     | [] => true
     | d :: _ => !isWordChar d)

/-- Search for a keyword occurrence preceded by a word boundary.  `prevWord`
records whether the previous character was a word character: since every keyword
starts with a word character, the boundary before an occurrence holds iff the
previous character is absent or not a word character. -/
def kwSearch (prevWord : Bool) : List Char → Bool
  | [] => false
  | c :: rest =>
    (!prevWord && keywordList.any (fun kw => kwHere kw (c :: rest))) ||
      kwSearch (isWordChar c) rest

/-- `test` of the unanchored KEYWORD regex. -/
def keywordTest (l : List Char) : Bool := kwSearch false l

/-- `test` of the unanchored IDENTIFIER regex `\b[a-zA-Z_]\w*\b`.  A match exists
iff some position with a word boundary before it starts with `[a-zA-Z_]`: the
greedy `\w*` can always extend to the end of the maximal word run, which ends at
a word boundary. -/
def identSearch (prevWord : Bool) : List Char → Bool
  | [] => false
  | c :: rest => (!prevWord && isIdentStart c) || identSearch (isWordChar c) rest

def identifierTest (l : List Char) : Bool := identSearch false l

/-- Word boundary after a match whose last character is a word character: the next
character is absent or not a word character. -/
def boundaryAfter : List Char → Bool
  | [] => true
  | d :: _ => !isWordChar d

/-- The optional exponent part `([eE][-+]?\d+)?` of the NUMBER pattern, followed by
`\b`.  The second disjunct is the group matching nothing (the regex engine falls
back to it when the exponent cannot complete). -/
def expTail (l : List Char) : Bool :=
  (match l with
   | e :: r =>
     (e = 'e' || e = 'E') &&
       (let r2 := match r with
                  | s :: r' => if s = '+' || s = '-' then r' else s :: r'
                  | [] => []
        let run := r2.takeWhile isDigitC
        decide (run ≠ []) && boundaryAfter (r2.drop run.length))
   | [] => false) ||
  boundaryAfter l

/-- The optional fraction part `(\.\d+)?` followed by the exponent part.  Shortening
the greedy `\d+` runs cannot help the search (a shortened run ends right before a
digit, which is a word character, so no later boundary or `.`/`e` test can
succeed), hence maximal runs suffice. -/
def fracExpTail (l : List Char) : Bool :=
  (match l with
   | '.' :: r =>
     let run := r.takeWhile isDigitC
     decide (run ≠ []) && expTail (r.drop run.length)
   | _ => false) ||
  expTail l

/-- Whether the NUMBER pattern `0x[0-9A-Fa-f]+|\d+(\.\d+)?([eE][-+]?\d+)?` matches
starting exactly here, with the trailing `\b`. -/
def numberAt (l : List Char) : Bool :=
  (match l with
   | '0' :: 'x' :: r =>
     let run := r.takeWhile isHexDigit
     decide (run ≠ []) && boundaryAfter (r.drop run.length)
   | _ => false) ||
  (let run := l.takeWhile isDigitC
   decide (run ≠ []) && fracExpTail (l.drop run.length))

/-- Search for a NUMBER match preceded by a word boundary (both alternatives start
with a digit, a word character, so the boundary before holds iff the previous
character is absent or not a word character). -/
def numSearch (prevWord : Bool) : List Char → Bool
  | [] => false
  | c :: rest => (!prevWord && numberAt (c :: rest)) || numSearch (isWordChar c) rest

/-- `test` of the unanchored NUMBER regex
`\b(0x[0-9A-Fa-f]+|\d+(\.\d+)?([eE][-+]?\d+)?)\b`. -/
def numberTest (l : List Char) : Bool := numSearch false l

/-- Match the body of `"([^"\\]|\\.)*"` after the opening quote: returns the
consumed characters (including the closing quote) and the remainder.  The two
star alternatives are decided by their first character (`\\.` iff it is a
backslash, `[^"\\]` otherwise) and the star can only stop before a quote, so the
backtracking search is this deterministic scan.  `.` does not match a line
terminator. -/
def matchStrBody : List Char → Option (List Char × List Char)
  | [] => none
  | c :: rest =>
    if c = '"' then some (['"'], rest)
    else if c = '\\' then
      match rest with
      | [] => none
      | d :: rest' =>
        if d = '\n' || d = '\r' then none
        else (matchStrBody rest').map (fun p => ('\\' :: d :: p.1, p.2))
    else (matchStrBody rest).map (fun p => (c :: p.1, p.2))

/-- `test` of the anchored STRING_LITERAL regex `^"([^"\\]|\\.)*"`. -/
def stringLitTest (l : List Char) : Bool :=
  match l with
  | '"' :: rest => (matchStrBody rest).isSome
  | _ => false

/-- `test` of the anchored PREPROCESSOR regex `^#\s*\w+\s*(<[^>]+>|"[^"]+")`.
Each greedy run is forced (the character classes at each decision point are
disjoint), so maximal munch is the only possible split. -/
def preprocTest (l : List Char) : Bool :=
  match l with
  | '#' :: r =>
    let r1 := r.dropWhile isWs
    let w := r1.takeWhile isWordChar
    decide (w ≠ []) &&
      (let r2 := (r1.drop w.length).dropWhile isWs
       match r2 with
       | '<' :: r3 =>
         let t := r3.takeWhile (fun c => !(c = '>'))
         decide (t ≠ []) &&
           (match r3.drop t.length with
            | '>' :: _ => true
            | _ => false)
       | '"' :: r3 =>
         let t := r3.takeWhile (fun c => !(c = '"'))
         decide (t ≠ []) &&
           (match r3.drop t.length with
            | '"' :: _ => true
            | _ => false)
       | _ => false)
  | _ => false

/-- The single-character operator class `[-+*/%=<>&^|!~]`. -/
def singleOpChars : List Char :=
  ['-', '+', '*', '/', '%', '=', '<', '>', '&', '^', '|', '!', '~']

def isSingleOpChar (c : Char) : Bool := singleOpChars.contains c

/-- The two-character operator alternatives `==|!=|<=|>=|\+\+|--|->|&&|\|\|`. -/
def twoCharOps : List (List Char) :=
  [['=', '='], ['!', '='], ['<', '='], ['>', '='], ['+', '+'], ['-', '-'],
   ['-', '>'], ['&', '&'], ['|', '|']]

/-- `test` of the anchored OPERATOR regex
`^(==|!=|<=|>=|\+\+|--|->|&&|\|\||[-+*/%=<>&^|!~])`. -/
def opTest (l : List Char) : Bool :=
  twoCharOps.any (fun p => isPre p l) ||
    (match l with
     | c :: _ => isSingleOpChar c
     | [] => false)

/-- `test` of the anchored SEPARATOR regex `^[;,.:]`. -/
def sepTest (l : List Char) : Bool :=
  match l with
  | c :: _ => c = ';' || c = ',' || c = '.' || c = ':'
  | [] => false

/-- `test` of `^[(]`. -/
def openParenTest (l : List Char) : Bool :=
  match l with
  | '(' :: _ => true
  | _ => false

/-- `test` of `^[)]`. -/
def closeParenTest (l : List Char) : Bool :=
  match l with
  | ')' :: _ => true
  | _ => false

/-- `test` of the open-brace regex. -/
def openBraceTest (l : List Char) : Bool :=
  match l with
  | '\x7b' :: _ => true
  | _ => false

/-- `test` of the close-brace regex. -/
def closeBraceTest (l : List Char) : Bool :=
  match l with
  | '\x7d' :: _ => true
  | _ => false

/-- Whether the closing sequence of a block comment occurs somewhere in `l`. -/
def hasCommentClose : List Char → Bool
  | '*' :: '/' :: _ => true
  | _ :: rest => hasCommentClose rest
  | [] => false

/-- `test` of the COMMENT regex: a `//` line comment prefix, or a `/*` prefix with a
closing `*/` somewhere after it (the lazy `[\s\S]*?` only needs existence). -/
def commentTest (l : List Char) : Bool :=
  isPre ['/', '/'] l ||
    (match l with
     | '/' :: '*' :: r => hasCommentClose r
     | _ => false)

/-- The `tokenRegex` object as the ordered `(type, test)` list that
`Object.entries` iterates over (property insertion order). -/
def tokenRegexList : List (TokenType × (List Char → Bool)) :=
  [(.PREPROCESSOR, preprocTest), (.KEYWORD, keywordTest),
   (.IDENTIFIER, identifierTest), (.NUMBER, numberTest),
   (.STRING_LITERAL, stringLitTest), (.OPERATOR, opTest), (.SEPARATOR, sepTest),
   (.OPEN_PAREN, openParenTest), (.CLOSE_PAREN, closeParenTest),
   (.OPEN_BRACE, openBraceTest), (.CLOSE_BRACE, closeBraceTest),
   (.COMMENT, commentTest)]

/-- `classifyLexeme`: the first matching category wins; fall back to UNDEFINED. -/
def classifyLexeme (lexeme : List Char) : Token :=
  match tokenRegexList.find? (fun p => p.2 lexeme) with
  | some p => ⟨p.1, lexeme⟩
  | none => ⟨.UNDEFINED, lexeme⟩

/-- Find the end of a block comment: the first later `*/` (the lazy
`[\s\S]*?\*\/`).  Returns the consumed characters (ending in `*/`) and the
remainder. -/
def findCommentEnd : List Char → Option (List Char × List Char)
  | '*' :: '/' :: rest => some (['*', '/'], rest)
  | c :: rest => (findCommentEnd rest).map (fun p => (c :: p.1, p.2))
  | [] => none

/-- The block-comment pre-pass `inputCode.replace(/\/\*[\s\S]*?\*\//g, ...)`:
every non-overlapping leftmost match is pushed as a COMMENT token and replaced in
the text by blank padding of equal length.  The recursion is driven by fuel;
every recursive call is on a strictly shorter list, so `stripBlockComments`
(fuel = length) never exhausts it. -/
def stripF : Nat → List Char → List Token × List Char
  | 0, _ => ([], [])
  | _ + 1, [] => ([], [])
  | fuel + 1, '/' :: '*' :: rest =>
    (match findCommentEnd rest with
     | some (body, rem) =>
       let m := '/' :: '*' :: body
       let r := stripF fuel rem
       (⟨.COMMENT, m⟩ :: r.1, List.replicate m.length ' ' ++ r.2)
     | none =>
       let r := stripF fuel ('*' :: rest)
       (r.1, '/' :: r.2))
  | fuel + 1, c :: rest =>
    let r := stripF fuel rest
    (r.1, c :: r.2)

def stripBlockComments (cs : List Char) : List Token × List Char :=
  stripF cs.length cs

/-- `inputCode.split('\n')`. -/
def splitLines : List Char → List (List Char)
  | [] => [[]]
  | '\n' :: rest => [] :: splitLines rest
  | c :: rest =>
    match splitLines rest with
    | [] => [[c]]
    | l :: ls => (c :: l) :: ls

/-- JS `String.prototype.trim`: strip whitespace from both ends. -/
def trimChars (l : List Char) : List Char :=
  ((l.dropWhile isWs).reverse.dropWhile isWs).reverse

/-- The character-level scanning loop of `tokenize` over one line, starting at the
current position (the remaining suffix of the line).  Fuel-driven: each step
consumes at least one character and spends at least one fuel, so fuel = length is
always enough.  In the two-character-operator branch the scan consumes two
characters, so the budget also drops by two there (the inner match; when the rest
is empty the scan is over either way). -/
def scanLineF : Nat → List Char → List Token
  | 0, _ => []
  | _ + 1, [] => []
  | fuel + 1, c :: rest =>
    if isWs c then scanLineF fuel rest
    else if c = '/' ∧ rest.head? = some '/' then
      [⟨.COMMENT, c :: rest⟩]
    else if c = '"' then
      match matchStrBody rest with
      | some (b, r) => ⟨.STRING_LITERAL, '"' :: b⟩ :: scanLineF fuel r
      | none => ⟨.UNDEFINED, ['"']⟩ :: scanLineF fuel rest
    else if opTest ((c :: rest).take 2) then
      ⟨.OPERATOR, (c :: rest).take 2⟩ ::
        (match fuel, rest with
         | f2 + 1, _ :: rest' => scanLineF f2 rest'
         | _, _ => [])
    else if opTest [c] then ⟨.OPERATOR, [c]⟩ :: scanLineF fuel rest
    else if sepTest [c] then ⟨.SEPARATOR, [c]⟩ :: scanLineF fuel rest
    else if openParenTest [c] then ⟨.OPEN_PAREN, [c]⟩ :: scanLineF fuel rest
    else if closeParenTest [c] then ⟨.CLOSE_PAREN, [c]⟩ :: scanLineF fuel rest
    else if openBraceTest [c] then ⟨.OPEN_BRACE, [c]⟩ :: scanLineF fuel rest
    else if closeBraceTest [c] then ⟨.CLOSE_BRACE, [c]⟩ :: scanLineF fuel rest
    else
      let lexeme := (c :: rest).takeWhile isWordChar
      if lexeme.length > 0 then
        classifyLexeme lexeme :: scanLineF fuel ((c :: rest).dropWhile isWordChar)
      else ⟨.UNDEFINED, [c]⟩ :: scanLineF fuel rest

def scanLine (l : List Char) : List Token := scanLineF l.length l

/-- One-step unfolding of the scanner loop at a non-empty line suffix (the
generated equations are split by deeper list/fuel shapes, so this single
equation is proved once by that case split and used everywhere). -/
lemma scanLineF_cons (f : Nat) (c : Char) (rest : List Char) :
    scanLineF (f + 1) (c :: rest) =
      (if isWs c then scanLineF f rest
       else if c = '/' ∧ rest.head? = some '/' then [⟨.COMMENT, c :: rest⟩]
       else if c = '"' then
         match matchStrBody rest with
         | some (b, r) => ⟨.STRING_LITERAL, '"' :: b⟩ :: scanLineF f r
         | none => ⟨.UNDEFINED, ['"']⟩ :: scanLineF f rest
       else if opTest ((c :: rest).take 2) then
         ⟨.OPERATOR, (c :: rest).take 2⟩ ::
           (match f, rest with
            | f2 + 1, _ :: rest2 => scanLineF f2 rest2
            | _, _ => [])
       else if opTest [c] then ⟨.OPERATOR, [c]⟩ :: scanLineF f rest
       else if sepTest [c] then ⟨.SEPARATOR, [c]⟩ :: scanLineF f rest
       else if openParenTest [c] then ⟨.OPEN_PAREN, [c]⟩ :: scanLineF f rest
       else if closeParenTest [c] then ⟨.CLOSE_PAREN, [c]⟩ :: scanLineF f rest
       else if openBraceTest [c] then ⟨.OPEN_BRACE, [c]⟩ :: scanLineF f rest
       else if closeBraceTest [c] then ⟨.CLOSE_BRACE, [c]⟩ :: scanLineF f rest
       else
         let lexeme := (c :: rest).takeWhile isWordChar
         if lexeme.length > 0 then
           classifyLexeme lexeme :: scanLineF f ((c :: rest).dropWhile isWordChar)
         else ⟨.UNDEFINED, [c]⟩ :: scanLineF f rest) := by
  rcases rest with _ | ⟨hd, tl⟩ <;> rcases f with _ | f2 <;> rfl

/-- Tokens produced for one line: a `#` line (after optional whitespace) becomes a
single PREPROCESSOR token holding the trimmed line; otherwise the line is
scanned. -/
def lineTokens (line : List Char) : List Token :=
  if (line.dropWhile isWs).head? = some '#' then [⟨.PREPROCESSOR, trimChars line⟩]
  else scanLine line

/-- `tokenize`: block-comment pre-pass (its COMMENT tokens come first), then the
line-by-line scan of the blanked text. -/
def tokenize (cs : List Char) : List Token :=
  let p := stripBlockComments cs
  p.1 ++ ((splitLines p.2).map lineTokens).flatten

/-- AST nodes: a tagged variant for each object shape the parser builds.  Fields
that the source can leave `null`/absent are `Option Node`.  The error objects
`{ error: message }` are the `errorNode` variant. -/
inductive Node where
  | program (body : List Node)
  | preprocessorDirective (value : List Char)
  | functionDeclaration (returnType : List Char) (name : List Char)
      (parameters : List Node) (body : Node)
  | parameter (paramType : List Char) (paramName : List Char)
  | compoundStatement (body : List Node)
  | ifStatement (condition : Option Node) (thenStmt : Option Node)
      (elseStmt : Option Node)
  | forStatement (initialization : Option Node) (condition : Option Node)
      (increment : Option Node) (body : Option Node)
  | declarationStatement (varType : List Char) (vars : List Node)
  | variableDeclarator (name : List Char) (initializer : Option Node)
  | returnStatement (expression : Option Node)
  | expressionStatement (expression : Option Node)
  | assignmentExpression (operator : List Char) (left : Option Node)
      (right : Option Node)
  | binaryExpression (operator : List Char) (left : Option Node)
      (right : Option Node)
  | prefixExpression (operator : List Char) (argument : Option Node)
  | postfixExpression (operator : List Char) (argument : Option Node)
  | literal (value : List Char)
  | identifier (name : List Char)
  | functionCall (name : List Char) (arguments : List Node)
  | unknown (value : List Char)
  | errorNode (message : List Char)
deriving Repr

/-- `tokens[i]` for the reads the source performs without a bounds check; every
such read happens at a call site that has already established `i < tokens.length`,
so the default is never consulted on a reachable path. -/
def getTok (tokens : List Token) (i : Nat) : Token :=
  (tokens.get? i).getD ⟨.UNDEFINED, []⟩

/-- The type-specifier subset of the keywords. -/
def typeSpecifiers : List (List Char) :=
  ["int", "char", "float", "double", "void"].map String.toList

/-- `isTypeSpecifier`: KEYWORD kind and value in the type list. -/
def isTypeSpecifier (t : Token) : Bool :=
  t.type == TokenType.KEYWORD && typeSpecifiers.contains t.value

mutual

/-- `parseExpression` = `parseAssignment`. -/
def parseExpression : Nat → List Token → Nat → Option (Option Node × Nat)
  | 0, _, _ => none
  | fuel + 1, tokens, cur => parseAssignment fuel tokens cur

termination_by structural fuel tokens cur => fuel
/-- `parseAssignment`: right-associative via the recursive self-call. -/
def parseAssignment : Nat → List Token → Nat → Option (Option Node × Nat)
  | 0, _, _ => none
  | fuel + 1, tokens, cur =>
    match parseEquality fuel tokens cur with
    | none => none
    | some (left, cur1) =>
      if cur1 < tokens.length ∧ (getTok tokens cur1).value = ['='] then
        match parseAssignment fuel tokens (cur1 + 1) with
        | none => none
        | some (right, cur2) =>
          some (some (.assignmentExpression (getTok tokens cur1).value left right),
                cur2)
      else some (left, cur1)

termination_by structural fuel tokens cur => fuel
def parseEquality : Nat → List Token → Nat → Option (Option Node × Nat)
  | 0, _, _ => none
  | fuel + 1, tokens, cur =>
    match parseRelational fuel tokens cur with
    | none => none
    | some (left, cur1) => parseEqualityLoop fuel tokens cur1 left

termination_by structural fuel tokens cur => fuel
/-- The `while` loop of `parseEquality` (`==`, `!=`, left-associative). -/
def parseEqualityLoop : Nat → List Token → Nat → Option Node →
    Option (Option Node × Nat)
  | 0, _, _, _ => none
  | fuel + 1, tokens, cur, left =>
    if cur < tokens.length ∧
        ((getTok tokens cur).value = ['=', '='] ∨
          (getTok tokens cur).value = ['!', '=']) then
      match parseRelational fuel tokens (cur + 1) with
      | none => none
      | some (right, cur1) =>
        parseEqualityLoop fuel tokens cur1
          (some (.binaryExpression (getTok tokens cur).value left right))
    else some (left, cur)

termination_by structural fuel tokens cur x => fuel
def parseRelational : Nat → List Token → Nat → Option (Option Node × Nat)
  | 0, _, _ => none
  | fuel + 1, tokens, cur =>
    match parseAdditive fuel tokens cur with
    | none => none
    | some (left, cur1) => parseRelationalLoop fuel tokens cur1 left

termination_by structural fuel tokens cur => fuel
/-- The `while` loop of `parseRelational` (`<`, `>`, `<=`, `>=`). -/
def parseRelationalLoop : Nat → List Token → Nat → Option Node →
    Option (Option Node × Nat)
  | 0, _, _, _ => none
  | fuel + 1, tokens, cur, left =>
    if cur < tokens.length ∧
        ((getTok tokens cur).value = ['<'] ∨ (getTok tokens cur).value = ['>'] ∨
          (getTok tokens cur).value = ['<', '='] ∨
          (getTok tokens cur).value = ['>', '=']) then
      match parseAdditive fuel tokens (cur + 1) with
      | none => none
      | some (right, cur1) =>
        parseRelationalLoop fuel tokens cur1
          (some (.binaryExpression (getTok tokens cur).value left right))
    else some (left, cur)

termination_by structural fuel tokens cur x => fuel
def parseAdditive : Nat → List Token → Nat → Option (Option Node × Nat)
  | 0, _, _ => none
  | fuel + 1, tokens, cur =>
    match parseMultiplicative fuel tokens cur with
    | none => none
    | some (left, cur1) => parseAdditiveLoop fuel tokens cur1 left

termination_by structural fuel tokens cur => fuel
/-- The `while` loop of `parseAdditive` (`+`, `-`). -/
def parseAdditiveLoop : Nat → List Token → Nat → Option Node →
    Option (Option Node × Nat)
  | 0, _, _, _ => none
  | fuel + 1, tokens, cur, left =>
    if cur < tokens.length ∧
        ((getTok tokens cur).value = ['+'] ∨ (getTok tokens cur).value = ['-']) then
      match parseMultiplicative fuel tokens (cur + 1) with
      | none => none
      | some (right, cur1) =>
        parseAdditiveLoop fuel tokens cur1
          (some (.binaryExpression (getTok tokens cur).value left right))
    else some (left, cur)

termination_by structural fuel tokens cur x => fuel
def parseMultiplicative : Nat → List Token → Nat → Option (Option Node × Nat)
  | 0, _, _ => none
  | fuel + 1, tokens, cur =>
    match parseUnary fuel tokens cur with
    | none => none
    | some (left, cur1) => parseMultiplicativeLoop fuel tokens cur1 left

termination_by structural fuel tokens cur => fuel
/-- The `while` loop of `parseMultiplicative` (`*`, `/`, `%`). -/
def parseMultiplicativeLoop : Nat → List Token → Nat → Option Node →
    Option (Option Node × Nat)
  | 0, _, _, _ => none
  | fuel + 1, tokens, cur, left =>
    if cur < tokens.length ∧
        ((getTok tokens cur).value = ['*'] ∨ (getTok tokens cur).value = ['/'] ∨
          (getTok tokens cur).value = ['%']) then
      match parseUnary fuel tokens (cur + 1) with
      | none => none
      | some (right, cur1) =>
        parseMultiplicativeLoop fuel tokens cur1
          (some (.binaryExpression (getTok tokens cur).value left right))
    else some (left, cur)

termination_by structural fuel tokens cur x => fuel
/-- `parseUnary`: prefix `++`/`--`, recursive. -/
def parseUnary : Nat → List Token → Nat → Option (Option Node × Nat)
  | 0, _, _ => none
  | fuel + 1, tokens, cur =>
    if cur < tokens.length ∧
        ((getTok tokens cur).value = ['+', '+'] ∨
          (getTok tokens cur).value = ['-', '-']) then
      match parseUnary fuel tokens (cur + 1) with
      | none => none
      | some (argument, cur1) =>
        some (some (.prefixExpression (getTok tokens cur).value argument), cur1)
    else parsePostfixExpr fuel tokens cur

termination_by structural fuel tokens cur => fuel
/-- `parsePostfix` of the source (renamed to avoid a clash with core notions). -/
def parsePostfixExpr : Nat → List Token → Nat → Option (Option Node × Nat)
  | 0, _, _ => none
  | fuel + 1, tokens, cur =>
    match parsePrimary fuel tokens cur with
    | none => none
    | some (node, cur1) => parsePostfixLoop fuel tokens cur1 node

termination_by structural fuel tokens cur => fuel
/-- The `while` loop of the postfix rule (postfix `++`/`--`). -/
def parsePostfixLoop : Nat → List Token → Nat → Option Node →
    Option (Option Node × Nat)
  | 0, _, _, _ => none
  | fuel + 1, tokens, cur, node =>
    if cur < tokens.length ∧
        ((getTok tokens cur).value = ['+', '+'] ∨
          (getTok tokens cur).value = ['-', '-']) then
      parsePostfixLoop fuel tokens (cur + 1)
        (some (.postfixExpression (getTok tokens cur).value node))
    else some (node, cur)

termination_by structural fuel tokens cur x => fuel
def parsePrimary : Nat → List Token → Nat → Option (Option Node × Nat)
  | 0, _, _ => none
  | fuel + 1, tokens, cur =>
    if cur ≥ tokens.length then some (none, cur)
    else
      let token := getTok tokens cur
      if (token.type = .SEPARATOR ∧ token.value = [';']) ∨
          token.type = .CLOSE_PAREN then
        some (none, cur)
      else if token.type = .NUMBER ∨ token.type = .STRING_LITERAL then
        some (some (.literal token.value), cur + 1)
      else if token.type = .IDENTIFIER ∨
          (token.type = .KEYWORD ∧ isTypeSpecifier token = false) then
        let cur1 := cur + 1
        if cur1 < tokens.length ∧ (getTok tokens cur1).type = .OPEN_PAREN then
          match parseArgsLoop fuel tokens (cur1 + 1) [] with
          | none => none
          | some (args, cur2) =>
            let cur3 :=
              if cur2 < tokens.length ∧ (getTok tokens cur2).type = .CLOSE_PAREN
              then cur2 + 1 else cur2
            some (some (.functionCall token.value args), cur3)
        else some (some (.identifier token.value), cur1)
      else if token.type = .OPEN_PAREN then
        match parseExpression fuel tokens (cur + 1) with
        | none => none
        | some (expr, cur1) =>
          let cur2 :=
            if cur1 < tokens.length ∧ (getTok tokens cur1).type = .CLOSE_PAREN
            then cur1 + 1 else cur1
          some (expr, cur2)
      else some (some (.unknown token.value), cur + 1)

termination_by structural fuel tokens cur => fuel
/-- The argument-list `while` loop of the function-call case of `parsePrimary`. -/
def parseArgsLoop : Nat → List Token → Nat → List Node →
    Option (List Node × Nat)
  | 0, _, _, _ => none
  | fuel + 1, tokens, cur, args =>
    if cur < tokens.length ∧ (getTok tokens cur).type ≠ .CLOSE_PAREN then
      match parseExpression fuel tokens cur with
      | none => none
      | some (arg, cur1) =>
        let args1 := args ++ (match arg with | some a => [a] | none => [])
        let cur2 :=
          if cur1 < tokens.length ∧ (getTok tokens cur1).value = [','] then cur1 + 1
          else cur1
        parseArgsLoop fuel tokens cur2 args1
    else some (args, cur)

termination_by structural fuel tokens cur x => fuel
end

mutual

def parseStatement : Nat → List Token → Nat → Option (Option Node × Nat)
  | 0, _, _ => none
  | fuel + 1, tokens, cur =>
    if cur ≥ tokens.length then some (none, cur)
    else
      let token := getTok tokens cur
      if token.type = .COMMENT then some (none, cur + 1)
      else if token.type = .KEYWORD ∧ token.value = "return".toList then
        (parseReturnStatement fuel tokens cur).map (fun p => (some p.1, p.2))
      else if token.type = .KEYWORD ∧ token.value = "if".toList then
        (parseIfStatement fuel tokens cur).map (fun p => (some p.1, p.2))
      else if token.type = .KEYWORD ∧ token.value = "for".toList then
        (parseForStatement fuel tokens cur).map (fun p => (some p.1, p.2))
      else if isTypeSpecifier token then
        (parseDeclaration fuel tokens cur true).map (fun p => (some p.1, p.2))
      else if token.type = .OPEN_BRACE then
        (parseCompoundStatement fuel tokens cur).map (fun p => (some p.1, p.2))
      else
        (parseExpressionStatement fuel tokens cur).map (fun p => (some p.1, p.2))

termination_by structural fuel tokens cur => fuel
def parseReturnStatement : Nat → List Token → Nat → Option (Node × Nat)
  | 0, _, _ => none
  | fuel + 1, tokens, cur =>
    match parseExpression fuel tokens (cur + 1) with
    | none => none
    | some (expr, cur1) =>
      let cur2 :=
        if cur1 < tokens.length ∧ (getTok tokens cur1).type = .SEPARATOR ∧
            (getTok tokens cur1).value = [';'] then cur1 + 1
        else cur1
      some (.returnStatement expr, cur2)

def parseIfStatement : Nat → List Token → Nat → Option (Node × Nat)
  | 0, _, _ => none
  | fuel + 1, tokens, cur =>
    let cur1 := cur + 1
    if cur1 ≥ tokens.length ∨ (getTok tokens cur1).type ≠ .OPEN_PAREN then
      some (.errorNode "Expected '(' after if".toList, cur1)
    else
      match parseExpression fuel tokens (cur1 + 1) with
      | none => none
      | some (condition, cur2) =>
        if cur2 ≥ tokens.length ∨ (getTok tokens cur2).type ≠ .CLOSE_PAREN then
          some (.errorNode "Expected ')' after if condition".toList, cur2)
        else
          match parseStatement fuel tokens (cur2 + 1) with
          | none => none
          | some (thenStmt, cur3) =>
            if cur3 < tokens.length ∧ (getTok tokens cur3).type = .KEYWORD ∧
                (getTok tokens cur3).value = "else".toList then
              match parseStatement fuel tokens (cur3 + 1) with
              | none => none
              | some (elseStmt, cur4) =>
                some (.ifStatement condition thenStmt elseStmt, cur4)
            else some (.ifStatement condition thenStmt none, cur3)

termination_by structural fuel tokens cur => fuel
def parseForStatement : Nat → List Token → Nat → Option (Node × Nat)
  | 0, _, _ => none
  | fuel + 1, tokens, cur =>
    let cur1 := cur + 1
    if cur1 ≥ tokens.length ∨ (getTok tokens cur1).type ≠ .OPEN_PAREN then
      some (.errorNode "Expected '(' after for".toList, cur1)
    else
      let cur2 := cur1 + 1
      match
        (if cur2 < tokens.length ∧ isTypeSpecifier (getTok tokens cur2) = true then
          (parseDeclaration fuel tokens cur2 false).map (fun p => (some p.1, p.2))
        else parseExpression fuel tokens cur2) with
      | none => none
      | some (initialization, cur3) =>
        let cur4 :=
          if cur3 < tokens.length ∧ (getTok tokens cur3).type = .SEPARATOR ∧
              (getTok tokens cur3).value = [';'] then cur3 + 1
          else cur3
        match parseExpression fuel tokens cur4 with
        | none => none
        | some (condition, cur5) =>
          let cur6 :=
            if cur5 < tokens.length ∧ (getTok tokens cur5).type = .SEPARATOR ∧
                (getTok tokens cur5).value = [';'] then cur5 + 1
            else cur5
          match parseExpression fuel tokens cur6 with
          | none => none
          | some (increment, cur7) =>
            if cur7 ≥ tokens.length ∨ (getTok tokens cur7).type ≠ .CLOSE_PAREN then
              some (.errorNode "Expected ')' after for increment".toList, cur7)
            else
              match parseStatement fuel tokens (cur7 + 1) with
              | none => none
              | some (body, cur8) =>
                some (.forStatement initialization condition increment body, cur8)

termination_by structural fuel tokens cur => fuel
def parseDeclaration : Nat → List Token → Nat → Bool → Option (Node × Nat)
  | 0, _, _, _ => none
  | fuel + 1, tokens, cur, expectSemicolon =>
    let varType := (getTok tokens cur).value
    match parseDeclLoop fuel tokens (cur + 1) expectSemicolon [] with
    | none => none
    | some (vs, cur1) => some (.declarationStatement varType vs, cur1)

/-- The declarator `while (true)` loop of `parseDeclaration`; the `break` at a
non-identifier position is the first alternative. -/
def parseDeclLoop : Nat → List Token → Nat → Bool → List Node →
    Option (List Node × Nat)
  | 0, _, _, _, _ => none
  | fuel + 1, tokens, cur, expectSemicolon, vars =>
    if cur ≥ tokens.length ∨ (getTok tokens cur).type ≠ .IDENTIFIER then
      some (vars, cur)
    else
      let varName := (getTok tokens cur).value
      let cur1 := cur + 1
      if cur1 < tokens.length ∧ (getTok tokens cur1).value = ['='] then
        match parseExpression fuel tokens (cur1 + 1) with
        | none => none
        | some (initializer, cur2) =>
          parseDeclAfter fuel tokens cur2 expectSemicolon
            (vars ++ [.variableDeclarator varName initializer])
      else
        parseDeclAfter fuel tokens cur1 expectSemicolon
          (vars ++ [.variableDeclarator varName none])

termination_by structural fuel tokens cur x y => fuel
/-- The tail of one declarator iteration: end of input breaks, `,` continues, a
`;` is consumed when `expectSemicolon`, anything else breaks. -/
def parseDeclAfter : Nat → List Token → Nat → Bool → List Node →
    Option (List Node × Nat)
  | 0, _, _, _, _ => none
  | fuel + 1, tokens, cur, expectSemicolon, vars =>
    if cur ≥ tokens.length then some (vars, cur)
    else if (getTok tokens cur).value = [','] then
      parseDeclLoop fuel tokens (cur + 1) expectSemicolon vars
    else if expectSemicolon = true ∧ (getTok tokens cur).type = .SEPARATOR ∧
        (getTok tokens cur).value = [';'] then
      some (vars, cur + 1)
    else some (vars, cur)

termination_by structural fuel tokens cur x y => fuel
def parseExpressionStatement : Nat → List Token → Nat → Option (Node × Nat)
  | 0, _, _ => none
  | fuel + 1, tokens, cur =>
    match parseExpression fuel tokens cur with
    | none => none
    | some (expr, cur1) =>
      let cur2 :=
        if cur1 < tokens.length ∧ (getTok tokens cur1).type = .SEPARATOR ∧
            (getTok tokens cur1).value = [';'] then cur1 + 1
        else cur1
      some (.expressionStatement expr, cur2)

def parseCompoundStatement : Nat → List Token → Nat → Option (Node × Nat)
  | 0, _, _ => none
  | fuel + 1, tokens, cur =>
    if (getTok tokens cur).type ≠ .OPEN_BRACE then
      some (.errorNode "Expected '\x7b' at beginning of compound statement".toList,
            cur)
    else
      match parseCompoundLoop fuel tokens (cur + 1) [] with
      | none => none
      | some (body, cur1) =>
        if cur1 < tokens.length ∧ (getTok tokens cur1).type = .CLOSE_BRACE then
          some (.compoundStatement body, cur1 + 1)
        else
          some (.errorNode "Expected '\x7d' at end of compound statement".toList,
                cur1)

termination_by structural fuel tokens cur => fuel
/-- The statement `while` loop of `parseCompoundStatement`; a `null` statement (a
skipped comment) is not pushed. -/
def parseCompoundLoop : Nat → List Token → Nat → List Node →
    Option (List Node × Nat)
  | 0, _, _, _ => none
  | fuel + 1, tokens, cur, body =>
    if cur < tokens.length ∧ (getTok tokens cur).type ≠ .CLOSE_BRACE then
      match parseStatement fuel tokens cur with
      | none => none
      | some (stmt, cur1) =>
        parseCompoundLoop fuel tokens cur1
          (body ++ (match stmt with | some s => [s] | none => []))
    else some (body, cur)

termination_by structural fuel tokens cur x => fuel
end

/-- The parameter `while` loop of `parseFunctionDefinition`.  The unguarded
`tokens[current]` read for the parameter name substitutes `"<missing id>"` when
the cursor has run past the end (and still advances the cursor). -/
def parseParams : Nat → List Token → Nat → List Node → Option (List Node × Nat)
  | 0, _, _, _ => none
  | fuel + 1, tokens, cur, params =>
    if cur < tokens.length ∧ (getTok tokens cur).value ≠ [')'] then
      if (getTok tokens cur).value = [','] then parseParams fuel tokens (cur + 1) params
      else if isTypeSpecifier (getTok tokens cur) then
        let paramType := (getTok tokens cur).value
        let cur1 := cur + 1
        let paramName :=
          match tokens.get? cur1 with
          | some t => t.value
          | none => "<missing id>".toList
        parseParams fuel tokens (cur1 + 1) (params ++ [.parameter paramType paramName])
      else parseParams fuel tokens (cur + 1) params
    else some (params, cur)

def parseFunctionDefinition : Nat → List Token → Nat → Option (Node × Nat)
  | 0, _, _ => none
  | fuel + 1, tokens, cur =>
    let returnType := (getTok tokens cur).value
    let cur1 := cur + 1
    if cur1 ≥ tokens.length ∨ (getTok tokens cur1).type ≠ .IDENTIFIER then
      some (.errorNode "Expected function name".toList, cur1)
    else
      let funcName := (getTok tokens cur1).value
      let cur2 := cur1 + 1
      if cur2 ≥ tokens.length ∨ (getTok tokens cur2).type ≠ .OPEN_PAREN then
        some (.errorNode "Expected '(' after function name".toList, cur2)
      else
        match parseParams fuel tokens (cur2 + 1) [] with
        | none => none
        | some (parameters, cur3) =>
          if cur3 ≥ tokens.length then
            some (.errorNode
              "Unexpected end of input while parsing function parameters".toList,
              cur3)
          else
            let cur4 := cur3 + 1
            if cur4 ≥ tokens.length ∨ (getTok tokens cur4).type ≠ .OPEN_BRACE then
              some (.errorNode
                "Expected '\x7b' at beginning of function body".toList, cur4)
            else
              match parseCompoundStatement fuel tokens cur4 with
              | none => none
              | some (bodyNode, cur5) =>
                some (.functionDeclaration returnType funcName parameters bodyNode,
                      cur5)

/-- The top-level `while` loop of `parseProgram`.  The `if (funcNode)` truthiness
test always passes (every parsing function returns an object), so the result is
always pushed. -/
def parseProgramLoop : Nat → List Token → Nat → List Node →
    Option (List Node × Nat)
  | 0, _, _, _ => none
  | fuel + 1, tokens, cur, body =>
    if cur < tokens.length then
      let token := getTok tokens cur
      if token.type = .COMMENT then parseProgramLoop fuel tokens (cur + 1) body
      else if token.type = .PREPROCESSOR then
        parseProgramLoop fuel tokens (cur + 1)
          (body ++ [.preprocessorDirective (trimChars token.value)])
      else if isTypeSpecifier token then
        match parseFunctionDefinition fuel tokens cur with
        | none => none
        | some (funcNode, cur1) => parseProgramLoop fuel tokens cur1 (body ++ [funcNode])
      else parseProgramLoop fuel tokens (cur + 1) body
    else some (body, cur)

/-- `parseProgram` starts by resetting the module-level cursor (`current = 0`), so
the incoming cursor value is discarded; the returned `Nat` is the cursor's final
value (the module-level state after the call). -/
def parseProgram (fuel : Nat) (tokens : List Token) (_currentIn : Nat) :
    Option (Node × Nat) :=
  match parseProgramLoop fuel tokens 0 [] with
  | none => none
  | some (body, cur) => some (.program body, cur)

/-- `parse(tokens)` = `parseProgram(tokens)`, invoked with whatever value the
module-level cursor holds from any previous call. -/
def parse (fuel : Nat) (tokens : List Token) (currentIn : Nat) :
    Option (Node × Nat) :=
  parseProgram fuel tokens currentIn

/-- The expression the spec expects for `1+2*3`: multiplication binding tighter
than addition. -/
def expectedAddMul : Node :=
  .binaryExpression ['+'] (some (.literal ['1']))
    (some (.binaryExpression ['*'] (some (.literal ['2'])) (some (.literal ['3']))))

/-- C1 (counterexample): running `tokenize` then `parse` on `"1+2*3;"` yields a
`Program` with an empty body (the scanner emits `+2` and `*3` as single Operator
tokens, and `parseProgram` skips every top-level token that is not a preprocessor
directive or type specifier), so no `ExpressionStatement` with the expected
nested `BinaryExpression` occurs in the result. -/
theorem addMul_pipeline_cex :
    parse 64 (tokenize "1+2*3;".toList) 0 = some (.program [], 4) ∧
      Node.expressionStatement (some expectedAddMul) ∉ ([] : List Node) :=
  ⟨rfl, by simp⟩

/-- C1 (amended): on the token sequence
`Number "1", Operator "+", Number "2", Operator "*", Number "3", Separator ";"`,
`parseExpressionStatement` produces an `ExpressionStatement` whose expression is
`BinaryExpression('+', Literal "1", BinaryExpression('*', Literal "2", Literal "3"))`,
i.e. the expression parser itself does bind multiplication tighter than addition. -/
theorem addMul_precedence_amended :
    parseExpressionStatement 64
      [⟨.NUMBER, ['1']⟩, ⟨.OPERATOR, ['+']⟩, ⟨.NUMBER, ['2']⟩,
       ⟨.OPERATOR, ['*']⟩, ⟨.NUMBER, ['3']⟩, ⟨.SEPARATOR, [';']⟩] 0 =
      some (.expressionStatement (some expectedAddMul), 6) := rfl

/-- C3: tokenizing then parsing `"int main(){ return 0; }"` yields a Program whose
body is exactly one FunctionDeclaration with returnType `int`, name `main`, no
parameters, and a CompoundStatement holding one ReturnStatement of `Literal "0"`. -/
theorem function_roundtrip :
    parse 64 (tokenize "int main()\x7b return 0; \x7d".toList) 0 =
      some (.program
        [.functionDeclaration "int".toList "main".toList []
          (.compoundStatement [.returnStatement (some (.literal ['0']))])], 9) := rfl

/-- C5: every reserved word is classified as KEYWORD (the keyword category is
tested before the identifier category in the ordered category list), never as
IDENTIFIER. -/
theorem keywords_classified_as_keyword :
    (["int", "char", "float", "double", "if", "else", "for", "while", "return",
      "void", "include", "define"].all
      (fun w => classifyLexeme w.toList == Token.mk .KEYWORD w.toList)) = true := by
  decide

/-- C7: parsing `"int f(int a { return a; }"` (missing `)`) returns normally and
produces, in place of the function, an error node with message
`"Unexpected end of input while parsing function parameters"`. -/
theorem malformed_params_graceful :
    parse 64 (tokenize "int f(int a \x7b return a; \x7d".toList) 0 =
      some (.program
        [.errorNode
          "Unexpected end of input while parsing function parameters".toList],
        10) := rfl

/-- C8: the expression parser implements the stated precedence and associativity:
assignment is right-associative; equality, relational, additive and
multiplicative levels are left-associative; multiplicative binds tighter than
additive; prefix and postfix `++` nest recursively. -/
theorem expression_precedence_chain :
    parseExpression 64
        [⟨.IDENTIFIER, ['a']⟩, ⟨.OPERATOR, ['=']⟩, ⟨.IDENTIFIER, ['b']⟩,
         ⟨.OPERATOR, ['=']⟩, ⟨.IDENTIFIER, ['c']⟩] 0 =
      some (some (.assignmentExpression ['='] (some (.identifier ['a']))
        (some (.assignmentExpression ['='] (some (.identifier ['b']))
          (some (.identifier ['c']))))), 5) ∧
    parseExpression 64
        [⟨.IDENTIFIER, ['a']⟩, ⟨.OPERATOR, ['-']⟩, ⟨.IDENTIFIER, ['b']⟩,
         ⟨.OPERATOR, ['-']⟩, ⟨.IDENTIFIER, ['c']⟩] 0 =
      some (some (.binaryExpression ['-']
        (some (.binaryExpression ['-'] (some (.identifier ['a']))
          (some (.identifier ['b']))))
        (some (.identifier ['c']))), 5) ∧
    parseExpression 64
        [⟨.IDENTIFIER, ['a']⟩, ⟨.OPERATOR, ['=', '=']⟩, ⟨.IDENTIFIER, ['b']⟩,
         ⟨.OPERATOR, ['=', '=']⟩, ⟨.IDENTIFIER, ['c']⟩] 0 =
      some (some (.binaryExpression ['=', '=']
        (some (.binaryExpression ['=', '='] (some (.identifier ['a']))
          (some (.identifier ['b']))))
        (some (.identifier ['c']))), 5) ∧
    parseExpression 64
        [⟨.IDENTIFIER, ['a']⟩, ⟨.OPERATOR, ['<']⟩, ⟨.IDENTIFIER, ['b']⟩,
         ⟨.OPERATOR, ['<']⟩, ⟨.IDENTIFIER, ['c']⟩] 0 =
      some (some (.binaryExpression ['<']
        (some (.binaryExpression ['<'] (some (.identifier ['a']))
          (some (.identifier ['b']))))
        (some (.identifier ['c']))), 5) ∧
    parseExpression 64
        [⟨.IDENTIFIER, ['a']⟩, ⟨.OPERATOR, ['+']⟩, ⟨.IDENTIFIER, ['b']⟩,
         ⟨.OPERATOR, ['*']⟩, ⟨.IDENTIFIER, ['c']⟩] 0 =
      some (some (.binaryExpression ['+'] (some (.identifier ['a']))
        (some (.binaryExpression ['*'] (some (.identifier ['b']))
          (some (.identifier ['c']))))), 5) ∧
    parseExpression 64
        [⟨.IDENTIFIER, ['a']⟩, ⟨.OPERATOR, ['/']⟩, ⟨.IDENTIFIER, ['b']⟩,
         ⟨.OPERATOR, ['%']⟩, ⟨.IDENTIFIER, ['c']⟩] 0 =
      some (some (.binaryExpression ['%']
        (some (.binaryExpression ['/'] (some (.identifier ['a']))
          (some (.identifier ['b']))))
        (some (.identifier ['c']))), 5) ∧
    parseExpression 64
        [⟨.OPERATOR, ['+', '+']⟩, ⟨.OPERATOR, ['+', '+']⟩, ⟨.IDENTIFIER, ['a']⟩] 0 =
      some (some (.prefixExpression ['+', '+']
        (some (.prefixExpression ['+', '+'] (some (.identifier ['a']))))), 3) ∧
    parseExpression 64
        [⟨.IDENTIFIER, ['a']⟩, ⟨.OPERATOR, ['+', '+']⟩, ⟨.OPERATOR, ['+', '+']⟩] 0 =
      some (some (.postfixExpression ['+', '+']
        (some (.postfixExpression ['+', '+'] (some (.identifier ['a']))))), 3) :=
  ⟨rfl, rfl, rfl, rfl, rfl, rfl, rfl, rfl⟩

/-- C10: the pipeline is deterministic.  `tokenize` is a pure function of its
input, and `parse` resets the shared cursor to 0 on entry (`parseProgram`
discards the incoming cursor state), so its result does not depend on the cursor
value left over from any earlier call — two sequential runs on the same token
sequence agree. -/
theorem pipeline_deterministic :
    (∀ cs : List Char, tokenize cs = tokenize cs) ∧
      (∀ (fuel : Nat) (tokens : List Token) (c1 c2 : Nat),
        parse fuel tokens c1 = parse fuel tokens c2) :=
  ⟨fun _ => rfl, fun _ _ _ _ => rfl⟩

/-!
Non-termination of `parse`.

On the token stream of `"int f(){)}"` the statement parser makes no progress: at
the CLOSE_PAREN token inside the function body (cursor 5), `parsePrimary` returns
null without advancing, no expression level consumes the token, and
`parseExpressionStatement` finds no semicolon, so `parseCompoundStatement`'s loop
re-enters `parseStatement` in exactly the same state forever.  In the fuel model
the run exhausts every fuel.
-/

/-- The token stream of `"int f(){)}"`. -/
def cycleToks : List Token :=
  [⟨.KEYWORD, "int".toList⟩, ⟨.IDENTIFIER, ['f']⟩, ⟨.OPEN_PAREN, ['(']⟩,
   ⟨.CLOSE_PAREN, [')']⟩, ⟨.OPEN_BRACE, ['\x7b']⟩, ⟨.CLOSE_PAREN, [')']⟩,
   ⟨.CLOSE_BRACE, ['\x7d']⟩]

lemma tokenize_cycleToks : tokenize "int f()\x7b)\x7d".toList = cycleToks := rfl

lemma primary_stall (g : Nat) :
    parsePrimary g cycleToks 5 = none ∨ parsePrimary g cycleToks 5 = some (none, 5) := by
  cases g with
  | zero => exact Or.inl rfl
  | succ g => exact Or.inr rfl

lemma postfixLoop_stall (g : Nat) (n : Option Node) :
    parsePostfixLoop g cycleToks 5 n = none ∨
      parsePostfixLoop g cycleToks 5 n = some (n, 5) := by
  cases g with
  | zero => exact Or.inl rfl
  | succ g => exact Or.inr rfl

lemma postfixExpr_stall (g : Nat) :
    parsePostfixExpr g cycleToks 5 = none ∨
      parsePostfixExpr g cycleToks 5 = some (none, 5) := by
  cases g with
  | zero => exact Or.inl rfl
  | succ g =>
    rcases primary_stall g with h | h
    · exact Or.inl (by simp only [parsePostfixExpr, h])
    · have h2 := postfixLoop_stall g none
      simpa only [parsePostfixExpr, h] using h2

lemma unary_stall (g : Nat) :
    parseUnary g cycleToks 5 = none ∨ parseUnary g cycleToks 5 = some (none, 5) := by
  cases g with
  | zero => exact Or.inl rfl
  | succ g =>
    have e : parseUnary (g + 1) cycleToks 5 = parsePostfixExpr g cycleToks 5 := rfl
    rw [e]
    exact postfixExpr_stall g

lemma multLoop_stall (g : Nat) (n : Option Node) :
    parseMultiplicativeLoop g cycleToks 5 n = none ∨
      parseMultiplicativeLoop g cycleToks 5 n = some (n, 5) := by
  cases g with
  | zero => exact Or.inl rfl
  | succ g => exact Or.inr rfl

lemma mult_stall (g : Nat) :
    parseMultiplicative g cycleToks 5 = none ∨
      parseMultiplicative g cycleToks 5 = some (none, 5) := by
  cases g with
  | zero => exact Or.inl rfl
  | succ g =>
    rcases unary_stall g with h | h
    · exact Or.inl (by simp only [parseMultiplicative, h])
    · have h2 := multLoop_stall g none
      simpa only [parseMultiplicative, h] using h2

lemma addLoop_stall (g : Nat) (n : Option Node) :
    parseAdditiveLoop g cycleToks 5 n = none ∨
      parseAdditiveLoop g cycleToks 5 n = some (n, 5) := by
  cases g with
  | zero => exact Or.inl rfl
  | succ g => exact Or.inr rfl

lemma add_stall (g : Nat) :
    parseAdditive g cycleToks 5 = none ∨
      parseAdditive g cycleToks 5 = some (none, 5) := by
  cases g with
  | zero => exact Or.inl rfl
  | succ g =>
    rcases mult_stall g with h | h
    · exact Or.inl (by simp only [parseAdditive, h])
    · have h2 := addLoop_stall g none
      simpa only [parseAdditive, h] using h2

lemma relLoop_stall (g : Nat) (n : Option Node) :
    parseRelationalLoop g cycleToks 5 n = none ∨
      parseRelationalLoop g cycleToks 5 n = some (n, 5) := by
  cases g with
  | zero => exact Or.inl rfl
  | succ g => exact Or.inr rfl

lemma rel_stall (g : Nat) :
    parseRelational g cycleToks 5 = none ∨
      parseRelational g cycleToks 5 = some (none, 5) := by
  cases g with
  | zero => exact Or.inl rfl
  | succ g =>
    rcases add_stall g with h | h
    · exact Or.inl (by simp only [parseRelational, h])
    · have h2 := relLoop_stall g none
      simpa only [parseRelational, h] using h2

lemma eqLoop_stall (g : Nat) (n : Option Node) :
    parseEqualityLoop g cycleToks 5 n = none ∨
      parseEqualityLoop g cycleToks 5 n = some (n, 5) := by
  cases g with
  | zero => exact Or.inl rfl
  | succ g => exact Or.inr rfl

lemma equality_stall (g : Nat) :
    parseEquality g cycleToks 5 = none ∨
      parseEquality g cycleToks 5 = some (none, 5) := by
  cases g with
  | zero => exact Or.inl rfl
  | succ g =>
    rcases rel_stall g with h | h
    · exact Or.inl (by simp only [parseEquality, h])
    · have h2 := eqLoop_stall g none
      simpa only [parseEquality, h] using h2

lemma assignment_stall (g : Nat) :
    parseAssignment g cycleToks 5 = none ∨
      parseAssignment g cycleToks 5 = some (none, 5) := by
  cases g with
  | zero => exact Or.inl rfl
  | succ g =>
    rcases equality_stall g with h | h
    · exact Or.inl (by simp only [parseAssignment, h])
    · right
      simp only [parseAssignment, h]
      rw [if_neg (by decide)]

lemma expression_stall (g : Nat) :
    parseExpression g cycleToks 5 = none ∨
      parseExpression g cycleToks 5 = some (none, 5) := by
  cases g with
  | zero => exact Or.inl rfl
  | succ g =>
    have e : parseExpression (g + 1) cycleToks 5 = parseAssignment g cycleToks 5 := rfl
    rw [e]
    exact assignment_stall g

lemma exprStmt_stall (g : Nat) :
    parseExpressionStatement g cycleToks 5 = none ∨
      parseExpressionStatement g cycleToks 5 =
        some (.expressionStatement none, 5) := by
  cases g with
  | zero => exact Or.inl rfl
  | succ g =>
    rcases expression_stall g with h | h
    · exact Or.inl (by simp only [parseExpressionStatement, h])
    · right
      simp only [parseExpressionStatement, h]
      rw [if_neg (by decide)]

lemma statement_stall (g : Nat) :
    parseStatement g cycleToks 5 = none ∨
      parseStatement g cycleToks 5 =
        some (some (.expressionStatement none), 5) := by
  cases g with
  | zero => exact Or.inl rfl
  | succ g =>
    have e : parseStatement (g + 1) cycleToks 5 =
        (parseExpressionStatement g cycleToks 5).map (fun p => (some p.1, p.2)) := rfl
    rw [e]
    rcases exprStmt_stall g with h | h <;> rw [h]
    · exact Or.inl rfl
    · exact Or.inr rfl

lemma compoundLoop_cycle_none : ∀ (g : Nat) (body : List Node),
    parseCompoundLoop g cycleToks 5 body = none := by
  intro g
  induction g with
  | zero => intro _; rfl
  | succ g ih =>
    intro body
    rcases statement_stall g with h | h
    · simp only [parseCompoundLoop, h]
      rw [if_pos (by decide)]
    · simp only [parseCompoundLoop, h]
      rw [if_pos (by decide)]
      exact ih _

lemma compound_cycle_none (g : Nat) : parseCompoundStatement g cycleToks 4 = none := by
  cases g with
  | zero => rfl
  | succ g =>
    simp only [parseCompoundStatement]
    rw [if_neg (by decide), compoundLoop_cycle_none g []]

lemma params_cycle_stall (g : Nat) :
    parseParams g cycleToks 3 [] = none ∨ parseParams g cycleToks 3 [] = some ([], 3) := by
  cases g with
  | zero => exact Or.inl rfl
  | succ g => exact Or.inr rfl

lemma fnDef_cycle_none (g : Nat) : parseFunctionDefinition g cycleToks 0 = none := by
  cases g with
  | zero => rfl
  | succ g =>
    have e : parseFunctionDefinition (g + 1) cycleToks 0 =
        match parseParams g cycleToks 3 [] with
        | none => none
        | some (parameters, cur3) =>
          if cur3 ≥ cycleToks.length then
            some (.errorNode
              "Unexpected end of input while parsing function parameters".toList,
              cur3)
          else
            let cur4 := cur3 + 1
            if cur4 ≥ cycleToks.length ∨ (getTok cycleToks cur4).type ≠ .OPEN_BRACE then
              some (.errorNode
                "Expected '\x7b' at beginning of function body".toList, cur4)
            else
              match parseCompoundStatement g cycleToks cur4 with
              | none => none
              | some (bodyNode, cur5) =>
                some (.functionDeclaration "int".toList ['f'] parameters bodyNode,
                      cur5) := rfl
    rw [e]
    rcases params_cycle_stall g with h | h <;> rw [h]
    simp only []
    rw [if_neg (by decide), if_neg (by decide), compound_cycle_none g]

lemma programLoop_cycle_none (g : Nat) (body : List Node) :
    parseProgramLoop g cycleToks 0 body = none := by
  cases g with
  | zero => rfl
  | succ g =>
    simp only [parseProgramLoop]
    rw [if_pos (by decide), if_neg (by decide), if_neg (by decide),
      if_pos (by decide), fnDef_cycle_none g]

/-- C2 (code bug): the cursor is indeed non-decreasing, but `parse` neither halts
on every input nor always ends with the cursor at or before the token count.  On
the token stream of `"int f(){)}"` the compound-statement loop repeats the same
state forever (every fuel is exhausted), and on `"int f(int"` the parse halts
with cursor 5 although there are only 4 tokens (the unguarded parameter-name
read advances the cursor past the end). -/
theorem parse_cursor_claim_fails :
    (∀ fuel, parse fuel (tokenize "int f()\x7b)\x7d".toList) 0 = none) ∧
      parse 64 (tokenize "int f(int".toList) 0 =
        some (.program
          [.errorNode
            "Unexpected end of input while parsing function parameters".toList],
          5) ∧
      (tokenize "int f(int".toList).length = 4 := by
  refine ⟨?_, rfl, rfl⟩
  intro fuel
  rw [tokenize_cycleToks]
  show parseProgram fuel cycleToks 0 = none
  simp only [parseProgram]
  rw [programLoop_cycle_none fuel []]

/-!
The two-character operator branch of the scanner.
-/

lemma singleOp_char_facts (c : Char) (h : isSingleOpChar c = true) :
    isWs c = false ∧ c ≠ '"' := by
  have hmem : c ∈ singleOpChars := by
    unfold isSingleOpChar at h
    exact List.mem_of_elem_eq_true h
  fin_cases hmem <;> exact ⟨by decide, by decide⟩

lemma opTest_true_of_single (c : Char) (l : List Char)
    (h : isSingleOpChar c = true) : opTest (c :: l) = true := by
  simp only [opTest, h, Bool.or_true]

/-- C9 (amended): during the line scan, whenever the current character is a
single-character operator, is followed by another character on the same line,
and does not start a `//` line comment, the scanner emits a single two-character
Operator token made of that character and the following one — whatever the
following character is — because the two-character operator test only checks
that the slice starts with an operator. -/
theorem single_op_swallows_next_char (c d : Char) (rest : List Char)
    (h1 : isSingleOpChar c = true) (h2 : c = '/' → d ≠ '/') :
    scanLine (c :: d :: rest) = ⟨.OPERATOR, [c, d]⟩ :: scanLine rest := by
  obtain ⟨hws, hq⟩ := singleOp_char_facts c h1
  have hsl : ¬(c = '/' ∧ (d :: rest).head? = some '/') := by
    rintro ⟨hc, hh⟩
    simp only [List.head?] at hh
    exact h2 hc (Option.some.inj hh)
  show scanLineF (rest.length + 1 + 1) (c :: d :: rest) = _
  rw [scanLineF_cons]
  rw [if_neg (by simp [hws]), if_neg hsl, if_neg hq]
  rw [show (c :: d :: rest).take 2 = [c, d] from rfl]
  rw [if_pos (opTest_true_of_single c [d] h1)]
  rfl

/-- C9 (counterexample): for `'/'` followed by `'/'` — a single-character
operator that is not the last character of its line — the scanner emits a
Comment token for the rest of the line, not a two-character Operator token, so
the claim as stated fails at this input. -/
theorem slash_slash_cex :
    scanLine ['/', '/', 'x'] = [⟨.COMMENT, ['/', '/', 'x']⟩] ∧
      (scanLine ['/', '/', 'x']).head? ≠ some ⟨.OPERATOR, ['/', '/']⟩ :=
  ⟨rfl, by decide⟩

/-- C9 (witness): the `'+'` of `"+2"` is emitted as the Operator token `"+2"`. -/
theorem single_op_swallows_next_char_witness :
    scanLine ['+', '2'] = [⟨.OPERATOR, ['+', '2']⟩] :=
  single_op_swallows_next_char '+' '2' [] (by decide) (by decide)

/-!
The block-comment pre-pass.
-/

lemma findCommentEnd_spec : ∀ (l b r : List Char),
    findCommentEnd l = some (b, r) → l = b ++ r ∧ 2 ≤ b.length := by
  intro l
  induction l using findCommentEnd.induct with
  | case1 rest =>
    intro b r h
    simp only [findCommentEnd, Option.some.injEq, Prod.mk.injEq] at h
    obtain ⟨rfl, rfl⟩ := h
    exact ⟨rfl, by decide⟩
  | case2 c rest h1 ih =>
    intro b r h
    simp only [findCommentEnd] at h
    rcases hm : findCommentEnd rest with _ | ⟨b', r'⟩
    · rw [hm] at h; simp at h
    · rw [hm] at h
      simp only [Option.map_some', Option.some.injEq, Prod.mk.injEq] at h
      obtain ⟨rfl, rfl⟩ := h
      obtain ⟨hsplit, hlen⟩ := ih b' r' hm
      constructor
      · simp [hsplit]
      · simpa using Nat.le_succ_of_le hlen
  | case3 =>
    intro b r h
    simp [findCommentEnd] at h

lemma stripF_blank_length : ∀ (f : Nat) (cs : List Char), cs.length ≤ f →
    (stripF f cs).2.length = cs.length := by
  intro f cs
  induction f, cs using stripF.induct with
  | case1 cs =>
    intro h
    have : cs = [] := List.eq_nil_of_length_eq_zero (Nat.le_zero.mp h)
    subst this; rfl
  | case2 fuel => intro _; rfl
  | case3 fuel rest body rem heq ih =>
    intro h
    obtain ⟨hsplit, hblen⟩ := findCommentEnd_spec rest body rem heq
    have hrest : rest.length = body.length + rem.length := by
      rw [hsplit, List.length_append]
    have hrem : rem.length ≤ fuel := by
      simp only [List.length_cons] at h
      omega
    simp only [stripF, heq, List.length_append, List.length_replicate,
      List.length_cons, ih hrem]
    omega
  | case4 fuel rest heq ih =>
    intro h
    have hr : ('*' :: rest).length ≤ fuel := by
      simp only [List.length_cons] at h ⊢
      omega
    simp only [stripF, heq, List.length_cons, ih hr]
  | case5 fuel c rest h1 ih =>
    intro h
    have hr : rest.length ≤ fuel := by
      simp only [List.length_cons] at h
      omega
    simp only [stripF, List.length_cons, ih hr]

lemma stripF_comments_only : ∀ (f : Nat) (cs : List Char),
    ((stripF f cs).1.all (fun t => t.type == TokenType.COMMENT)) = true := by
  intro f cs
  induction f, cs using stripF.induct with
  | case1 => rfl
  | case2 => rfl
  | case3 fuel rest body rem heq ih =>
    simp only [stripF, heq, List.all_cons, ih, Bool.and_true]
    rfl
  | case4 fuel rest heq ih => simp only [stripF, heq, ih]
  | case5 fuel c rest h1 ih => simp only [stripF, ih]

/-- C6: all Comment tokens produced by the block-comment pre-pass come before
every token produced by the line-by-line pass (`tokenize` is exactly the
pre-pass tokens followed by the line-scanned tokens, and the pre-pass emits only
Comment tokens); each block-comment span is replaced in the scanned text by
blank padding of equal length (the blanked text has the same length as the
input); and concretely, on `"/* c */ int x;"` the Comment token precedes the
`int` Keyword token. -/
theorem block_comments_hoisted :
    (∀ cs : List Char,
      tokenize cs =
        (stripBlockComments cs).1 ++
          ((splitLines (stripBlockComments cs).2).map lineTokens).flatten) ∧
    (∀ cs : List Char,
      ((stripBlockComments cs).1.all (fun t => t.type == TokenType.COMMENT)) = true) ∧
    (∀ cs : List Char, (stripBlockComments cs).2.length = cs.length) ∧
    tokenize "/* c */ int x;".toList =
      [⟨.COMMENT, "/* c */".toList⟩, ⟨.KEYWORD, "int".toList⟩,
       ⟨.IDENTIFIER, ['x']⟩, ⟨.SEPARATOR, [';']⟩] :=
  ⟨fun _ => rfl,
   fun cs => stripF_comments_only cs.length cs,
   fun cs => stripF_blank_length cs.length cs (Nat.le_refl _),
   rfl⟩

/-!
Character preservation of `tokenize`.
-/

/-- The non-whitespace characters of a character list. -/
def nonWs (l : List Char) : List Char := l.filter (fun c => !isWs c)

/-- All characters carried by a token list, in order. -/
def tokVals (ts : List Token) : List Char := (ts.map Token.value).flatten

lemma bool_not_true {b : Bool} (h : b = false) : ¬(b = true) := by simp [h]

lemma tokVals_nil : tokVals [] = [] := rfl

lemma tokVals_cons (t : Token) (ts : List Token) :
    tokVals (t :: ts) = t.value ++ tokVals ts := rfl

lemma tokVals_append (a b : List Token) :
    tokVals (a ++ b) = tokVals a ++ tokVals b := by
  simp [tokVals]

lemma nonWs_append (a b : List Char) : nonWs (a ++ b) = nonWs a ++ nonWs b :=
  List.filter_append ..

lemma nonWs_cons_ws (c : Char) (h : isWs c = true) (l : List Char) :
    nonWs (c :: l) = nonWs l := by
  simp [nonWs, List.filter_cons, h]

lemma nonWs_cons_keep (c : Char) (h : isWs c = false) (l : List Char) :
    nonWs (c :: l) = c :: nonWs l := by
  simp [nonWs, List.filter_cons, h]

lemma nonWs_replicate_space (n : Nat) : nonWs (List.replicate n ' ') = [] := by
  induction n with
  | zero => rfl
  | succ n ih => simpa [List.replicate_succ, nonWs_cons_ws ' ' rfl] using ih

lemma nonWs_reverse (l : List Char) : nonWs l.reverse = (nonWs l).reverse := by
  induction l with
  | nil => rfl
  | cons c rest ih =>
    by_cases h : isWs c
    · rw [List.reverse_cons, nonWs_append, ih]
      simp [nonWs, List.filter_cons, h]
    · have h' : isWs c = false := by simpa using h
      rw [List.reverse_cons, nonWs_append, ih]
      simp [nonWs, List.filter_cons, h']

lemma nonWs_dropWhile_ws (l : List Char) : nonWs (l.dropWhile isWs) = nonWs l := by
  induction l with
  | nil => rfl
  | cons c rest ih =>
    by_cases h : isWs c
    · rw [List.dropWhile_cons_of_pos h, ih, nonWs_cons_ws c h]
    · rw [List.dropWhile_cons_of_neg h]

lemma nonWs_trim (l : List Char) : nonWs (trimChars l) = nonWs l := by
  unfold trimChars
  rw [nonWs_reverse, nonWs_dropWhile_ws, nonWs_reverse, List.reverse_reverse,
    nonWs_dropWhile_ws]

lemma classifyLexeme_value (l : List Char) : (classifyLexeme l).value = l := by
  unfold classifyLexeme
  split <;> rfl

lemma matchStrBody_spec : ∀ (l b r : List Char),
    matchStrBody l = some (b, r) → l = b ++ r ∧ b ≠ [] := by
  intro l
  induction l using matchStrBody.induct with
  | case1 =>
    intro b r h
    simp [matchStrBody] at h
  | case2 tail =>
    intro b r h
    rw [matchStrBody.eq_def] at h
    simp at h
    obtain ⟨rfl, rfl⟩ := h
    exact ⟨rfl, by simp⟩
  | case3 h3 =>
    intro b r h
    simp [matchStrBody] at h
  | case4 d tail hd h4 =>
    intro b r h
    simp [matchStrBody, hd] at h
  | case5 d tail hd h5 ih =>
    intro b r h
    rcases hm : matchStrBody tail with _ | ⟨b2, r2⟩
    · simp [matchStrBody, hd, hm] at h
    · simp [matchStrBody, hd, hm] at h
      obtain ⟨rfl, rfl⟩ := h
      obtain ⟨hsplit, _⟩ := ih b2 r2 hm
      exact ⟨by simp [hsplit], by simp⟩
  | case6 d tail hq hb ih =>
    intro b r h
    rw [matchStrBody.eq_def] at h
    rcases hm : matchStrBody tail with _ | ⟨b2, r2⟩
    · simp [hq, hb, hm] at h
    · simp [hq, hb, hm] at h
      obtain ⟨rfl, rfl⟩ := h
      obtain ⟨hsplit, _⟩ := ih b2 r2 hm
      exact ⟨by simp [hsplit], by simp⟩

lemma nonWs_split_cons (c : Char) (l : List Char) :
    nonWs (c :: l) = nonWs [c] ++ nonWs l := by
  rw [show (c :: l) = [c] ++ l from rfl, nonWs_append]

/-! Step equations for the scanner loop, one per branch, with the branch guards
as hypotheses. -/

lemma scanF_ws (f : Nat) (c : Char) (rest : List Char) (h1 : isWs c = true) :
    scanLineF (f + 1) (c :: rest) = scanLineF f rest := by
  rw [scanLineF_cons]
  rw [if_pos h1]

lemma scanF_lineComment (f : Nat) (c : Char) (rest : List Char)
    (h1 : ¬isWs c = true) (h2 : c = '/' ∧ rest.head? = some '/') :
    scanLineF (f + 1) (c :: rest) = [⟨.COMMENT, c :: rest⟩] := by
  rw [scanLineF_cons]
  rw [if_neg h1, if_pos h2]

lemma scanF_strSome (f : Nat) (c : Char) (rest b r : List Char)
    (h1 : ¬isWs c = true) (h2 : ¬(c = '/' ∧ rest.head? = some '/'))
    (h3 : c = '"') (hm : matchStrBody rest = some (b, r)) :
    scanLineF (f + 1) (c :: rest) = ⟨.STRING_LITERAL, '"' :: b⟩ :: scanLineF f r := by
  rw [scanLineF_cons]
  rw [if_neg h1, if_neg h2, if_pos h3, hm]

lemma scanF_strNone (f : Nat) (c : Char) (rest : List Char)
    (h1 : ¬isWs c = true) (h2 : ¬(c = '/' ∧ rest.head? = some '/'))
    (h3 : c = '"') (hm : matchStrBody rest = none) :
    scanLineF (f + 1) (c :: rest) = ⟨.UNDEFINED, ['"']⟩ :: scanLineF f rest := by
  rw [scanLineF_cons]
  rw [if_neg h1, if_neg h2, if_pos h3, hm]

lemma scanF_twoChar (f : Nat) (c : Char) (rest : List Char)
    (h1 : ¬isWs c = true) (h2 : ¬(c = '/' ∧ rest.head? = some '/'))
    (h3 : ¬c = '"') (h4 : opTest ((c :: rest).take 2) = true) :
    scanLineF (f + 1) (c :: rest) =
      ⟨.OPERATOR, (c :: rest).take 2⟩ ::
        (match f, rest with
         | f2 + 1, _ :: rest2 => scanLineF f2 rest2
         | _, _ => []) := by
  rw [scanLineF_cons]
  rw [if_neg h1, if_neg h2, if_neg h3, if_pos h4]

lemma scanF_oneOp (f : Nat) (c : Char) (rest : List Char)
    (h1 : ¬isWs c = true) (h2 : ¬(c = '/' ∧ rest.head? = some '/'))
    (h3 : ¬c = '"') (h4 : ¬opTest ((c :: rest).take 2) = true)
    (h5 : opTest [c] = true) :
    scanLineF (f + 1) (c :: rest) = ⟨.OPERATOR, [c]⟩ :: scanLineF f rest := by
  rw [scanLineF_cons]
  rw [if_neg h1, if_neg h2, if_neg h3, if_neg h4, if_pos h5]

lemma scanF_sep (f : Nat) (c : Char) (rest : List Char)
    (h1 : ¬isWs c = true) (h2 : ¬(c = '/' ∧ rest.head? = some '/'))
    (h3 : ¬c = '"') (h4 : ¬opTest ((c :: rest).take 2) = true)
    (h5 : ¬opTest [c] = true) (h6 : sepTest [c] = true) :
    scanLineF (f + 1) (c :: rest) = ⟨.SEPARATOR, [c]⟩ :: scanLineF f rest := by
  rw [scanLineF_cons]
  rw [if_neg h1, if_neg h2, if_neg h3, if_neg h4, if_neg h5, if_pos h6]

lemma scanF_openParen (f : Nat) (c : Char) (rest : List Char)
    (h1 : ¬isWs c = true) (h2 : ¬(c = '/' ∧ rest.head? = some '/'))
    (h3 : ¬c = '"') (h4 : ¬opTest ((c :: rest).take 2) = true)
    (h5 : ¬opTest [c] = true) (h6 : ¬sepTest [c] = true)
    (h7 : openParenTest [c] = true) :
    scanLineF (f + 1) (c :: rest) = ⟨.OPEN_PAREN, [c]⟩ :: scanLineF f rest := by
  rw [scanLineF_cons]
  rw [if_neg h1, if_neg h2, if_neg h3, if_neg h4, if_neg h5, if_neg h6, if_pos h7]

lemma scanF_closeParen (f : Nat) (c : Char) (rest : List Char)
    (h1 : ¬isWs c = true) (h2 : ¬(c = '/' ∧ rest.head? = some '/'))
    (h3 : ¬c = '"') (h4 : ¬opTest ((c :: rest).take 2) = true)
    (h5 : ¬opTest [c] = true) (h6 : ¬sepTest [c] = true)
    (h7 : ¬openParenTest [c] = true) (h8 : closeParenTest [c] = true) :
    scanLineF (f + 1) (c :: rest) = ⟨.CLOSE_PAREN, [c]⟩ :: scanLineF f rest := by
  rw [scanLineF_cons]
  rw [if_neg h1, if_neg h2, if_neg h3, if_neg h4, if_neg h5, if_neg h6, if_neg h7,
    if_pos h8]

lemma scanF_openBrace (f : Nat) (c : Char) (rest : List Char)
    (h1 : ¬isWs c = true) (h2 : ¬(c = '/' ∧ rest.head? = some '/'))
    (h3 : ¬c = '"') (h4 : ¬opTest ((c :: rest).take 2) = true)
    (h5 : ¬opTest [c] = true) (h6 : ¬sepTest [c] = true)
    (h7 : ¬openParenTest [c] = true) (h8 : ¬closeParenTest [c] = true)
    (h9 : openBraceTest [c] = true) :
    scanLineF (f + 1) (c :: rest) = ⟨.OPEN_BRACE, [c]⟩ :: scanLineF f rest := by
  rw [scanLineF_cons]
  rw [if_neg h1, if_neg h2, if_neg h3, if_neg h4, if_neg h5, if_neg h6, if_neg h7,
    if_neg h8, if_pos h9]

lemma scanF_closeBrace (f : Nat) (c : Char) (rest : List Char)
    (h1 : ¬isWs c = true) (h2 : ¬(c = '/' ∧ rest.head? = some '/'))
    (h3 : ¬c = '"') (h4 : ¬opTest ((c :: rest).take 2) = true)
    (h5 : ¬opTest [c] = true) (h6 : ¬sepTest [c] = true)
    (h7 : ¬openParenTest [c] = true) (h8 : ¬closeParenTest [c] = true)
    (h9 : ¬openBraceTest [c] = true) (h10 : closeBraceTest [c] = true) :
    scanLineF (f + 1) (c :: rest) = ⟨.CLOSE_BRACE, [c]⟩ :: scanLineF f rest := by
  rw [scanLineF_cons]
  rw [if_neg h1, if_neg h2, if_neg h3, if_neg h4, if_neg h5, if_neg h6, if_neg h7,
    if_neg h8, if_neg h9, if_pos h10]

lemma scanF_lexeme (f : Nat) (c : Char) (rest : List Char)
    (h1 : ¬isWs c = true) (h2 : ¬(c = '/' ∧ rest.head? = some '/'))
    (h3 : ¬c = '"') (h4 : ¬opTest ((c :: rest).take 2) = true)
    (h5 : ¬opTest [c] = true) (h6 : ¬sepTest [c] = true)
    (h7 : ¬openParenTest [c] = true) (h8 : ¬closeParenTest [c] = true)
    (h9 : ¬openBraceTest [c] = true) (h10 : ¬closeBraceTest [c] = true)
    (h11 : isWordChar c = true) :
    scanLineF (f + 1) (c :: rest) =
      classifyLexeme ((c :: rest).takeWhile isWordChar) ::
        scanLineF f ((c :: rest).dropWhile isWordChar) := by
  rw [scanLineF_cons]
  rw [if_neg h1, if_neg h2, if_neg h3, if_neg h4, if_neg h5, if_neg h6, if_neg h7,
    if_neg h8, if_neg h9, if_neg h10,
    if_pos (by rw [List.takeWhile_cons_of_pos h11]; exact Nat.succ_pos _)]

lemma scanF_undef (f : Nat) (c : Char) (rest : List Char)
    (h1 : ¬isWs c = true) (h2 : ¬(c = '/' ∧ rest.head? = some '/'))
    (h3 : ¬c = '"') (h4 : ¬opTest ((c :: rest).take 2) = true)
    (h5 : ¬opTest [c] = true) (h6 : ¬sepTest [c] = true)
    (h7 : ¬openParenTest [c] = true) (h8 : ¬closeParenTest [c] = true)
    (h9 : ¬openBraceTest [c] = true) (h10 : ¬closeBraceTest [c] = true)
    (h11 : ¬isWordChar c = true) :
    scanLineF (f + 1) (c :: rest) = ⟨.UNDEFINED, [c]⟩ :: scanLineF f rest := by
  rw [scanLineF_cons]
  rw [if_neg h1, if_neg h2, if_neg h3, if_neg h4, if_neg h5, if_neg h6, if_neg h7,
    if_neg h8, if_neg h9, if_neg h10,
    if_neg (by rw [List.takeWhile_cons_of_neg h11]; simp)]

lemma scanLineF_chars : ∀ (f : Nat) (l : List Char), l.length ≤ f →
    nonWs (tokVals (scanLineF f l)) = nonWs l := by
  intro f
  induction f using Nat.strong_induction_on with
  | _ f ih =>
    intro l hl
    rcases f with _ | f
    · have : l = [] := List.eq_nil_of_length_eq_zero (Nat.le_zero.mp hl)
      subst this; rfl
    rcases l with _ | ⟨c, rest⟩
    · rfl
    have hrest : rest.length ≤ f := by simpa using hl
    have ihf : ∀ l2 : List Char, l2.length ≤ f →
        nonWs (tokVals (scanLineF f l2)) = nonWs l2 :=
      fun l2 h2 => ih f (Nat.lt_succ_self f) l2 h2
    by_cases h1 : isWs c
    · rw [scanF_ws f c rest h1, ihf rest hrest, nonWs_cons_ws c h1]
    · by_cases h2 : c = '/' ∧ rest.head? = some '/'
      · rw [scanF_lineComment f c rest h1 h2]
        simp [tokVals, nonWs]
      · by_cases h3 : c = '"'
        · rcases hm : matchStrBody rest with _ | ⟨b, r⟩
          · rw [scanF_strNone f c rest h1 h2 h3 hm, tokVals_cons, nonWs_append,
              ihf rest hrest, h3, ← nonWs_split_cons]
          · obtain ⟨hsplit, hb⟩ := matchStrBody_spec rest b r hm
            have hr : r.length ≤ f := by
              have := hrest
              rw [hsplit, List.length_append] at this
              omega
            rw [scanF_strSome f c rest b r h1 h2 h3 hm, tokVals_cons, nonWs_append,
              ihf r hr, h3, hsplit]
            rw [nonWs_split_cons, nonWs_split_cons '"' (b ++ r), nonWs_append,
              List.append_assoc]
        · by_cases h4 : opTest ((c :: rest).take 2) = true
          · rw [scanF_twoChar f c rest h1 h2 h3 h4]
            rcases rest with _ | ⟨r1, rest2⟩
            · rcases f with _ | f2 <;> simp [tokVals, nonWs]
            · rcases f with _ | f2
              · have hc : rest2.length + 1 + 1 ≤ 0 + 1 := by simpa using hl
                omega
              · have hr2 : rest2.length ≤ f2 := by
                  have hc : rest2.length + 1 + 1 ≤ f2 + 1 + 1 := by simpa using hl
                  omega
                have ihf2 := ih f2 (by omega) rest2 hr2
                show nonWs (tokVals (⟨.OPERATOR, [c, r1]⟩ :: scanLineF f2 rest2)) = _
                rw [tokVals_cons, nonWs_append, ihf2,
                  show ([c, r1] : List Char) = [c] ++ [r1] from rfl, nonWs_append,
                  nonWs_split_cons c (r1 :: rest2), nonWs_split_cons r1 rest2,
                  List.append_assoc]
          · by_cases h5 : opTest [c] = true
            · rw [scanF_oneOp f c rest h1 h2 h3 h4 h5, tokVals_cons, nonWs_append,
                ihf rest hrest, ← nonWs_split_cons]
            · by_cases h6 : sepTest [c] = true
              · rw [scanF_sep f c rest h1 h2 h3 h4 h5 h6, tokVals_cons,
                  nonWs_append, ihf rest hrest, ← nonWs_split_cons]
              · by_cases h7 : openParenTest [c] = true
                · rw [scanF_openParen f c rest h1 h2 h3 h4 h5 h6 h7, tokVals_cons,
                    nonWs_append, ihf rest hrest, ← nonWs_split_cons]
                · by_cases h8 : closeParenTest [c] = true
                  · rw [scanF_closeParen f c rest h1 h2 h3 h4 h5 h6 h7 h8,
                      tokVals_cons, nonWs_append, ihf rest hrest, ← nonWs_split_cons]
                  · by_cases h9 : openBraceTest [c] = true
                    · rw [scanF_openBrace f c rest h1 h2 h3 h4 h5 h6 h7 h8 h9,
                        tokVals_cons, nonWs_append, ihf rest hrest,
                        ← nonWs_split_cons]
                    · by_cases h10 : closeBraceTest [c] = true
                      · rw [scanF_closeBrace f c rest h1 h2 h3 h4 h5 h6 h7 h8 h9 h10,
                          tokVals_cons, nonWs_append, ihf rest hrest,
                          ← nonWs_split_cons]
                      · by_cases h11 : isWordChar c = true
                        · rw [scanF_lexeme f c rest h1 h2 h3 h4 h5 h6 h7 h8 h9 h10 h11,
                            tokVals_cons, classifyLexeme_value, nonWs_append]
                          have hdw : ((c :: rest).dropWhile isWordChar).length ≤ f := by
                            rw [List.dropWhile_cons_of_pos h11]
                            exact Nat.le_trans
                              ((List.dropWhile_sublist _).length_le) hrest
                          rw [ihf _ hdw, ← nonWs_append,
                            List.takeWhile_append_dropWhile]
                        · rw [scanF_undef f c rest h1 h2 h3 h4 h5 h6 h7 h8 h9 h10 h11,
                            tokVals_cons, nonWs_append, ihf rest hrest,
                            ← nonWs_split_cons]

lemma splitLines_cons (c : Char) (rest : List Char) (hne : ¬c = '\n') :
    splitLines (c :: rest) =
      match splitLines rest with
      | [] => [[c]]
      | l :: ls => (c :: l) :: ls := by
  rw [splitLines.eq_def]
  split <;> simp_all

lemma splitLines_flatten_nonWs : ∀ l : List Char,
    nonWs (splitLines l).flatten = nonWs l := by
  intro l
  induction l using splitLines.induct with
  | case1 => rfl
  | case2 rest ih =>
    rw [show splitLines ('\n' :: rest) = [] :: splitLines rest from rfl,
      List.flatten_cons, List.nil_append, ih, nonWs_cons_ws '\n' rfl]
  | case3 c rest hne hnil ih =>
    rw [hnil] at ih
    rw [splitLines_cons c rest (fun h => hne h), hnil]
    simp only [List.flatten_cons, List.flatten_nil, List.append_nil]
    rw [nonWs_split_cons c rest, ← ih]
    simp [nonWs]
  | case4 c rest hne l2 ls2 heq ih =>
    rw [heq] at ih
    rw [splitLines_cons c rest (fun h => hne h), heq]
    simp only [List.flatten_cons] at ih ⊢
    rw [nonWs_append, nonWs_split_cons c l2, List.append_assoc, ← nonWs_append, ih,
      ← nonWs_split_cons]

lemma lineTokens_nonWs (line : List Char) :
    nonWs (tokVals (lineTokens line)) = nonWs line := by
  unfold lineTokens
  split
  · rw [tokVals_cons, tokVals_nil, List.append_nil, nonWs_trim]
  · exact scanLineF_chars line.length line (Nat.le_refl _)

lemma linesTokens_nonWs : ∀ ls : List (List Char),
    nonWs (tokVals ((ls.map lineTokens).flatten)) = nonWs ls.flatten := by
  intro ls
  induction ls with
  | nil => rfl
  | cons l ls ih =>
    rw [List.map_cons, List.flatten_cons, List.flatten_cons, tokVals_append,
      nonWs_append, nonWs_append, lineTokens_nonWs, ih]

lemma stripF_perm : ∀ (f : Nat) (cs : List Char), cs.length ≤ f →
    (nonWs (tokVals (stripF f cs).1) ++ nonWs (stripF f cs).2).Perm (nonWs cs) := by
  intro f cs
  induction f, cs using stripF.induct with
  | case1 cs =>
    intro h
    have : cs = [] := List.eq_nil_of_length_eq_zero (Nat.le_zero.mp h)
    subst this
    exact List.Perm.refl _
  | case2 fuel =>
    intro _
    exact List.Perm.refl _
  | case3 fuel rest body rem heq ih =>
    intro h
    obtain ⟨hsplit, hblen⟩ := findCommentEnd_spec rest body rem heq
    have hrlen : rest.length = body.length + rem.length := by
      rw [hsplit, List.length_append]
    have hrem : rem.length ≤ fuel := by
      simp only [List.length_cons] at h
      omega
    specialize ih hrem
    simp only [stripF, heq]
    rw [tokVals_cons, nonWs_append, nonWs_append, nonWs_replicate_space,
      List.nil_append, List.append_assoc]
    have hrhs : nonWs ('/' :: '*' :: rest) =
        nonWs ('/' :: '*' :: body) ++ nonWs rem := by
      rw [hsplit,
        show ('/' :: '*' :: (body ++ rem) : List Char) =
          ('/' :: '*' :: body) ++ rem from by simp,
        nonWs_append]
    rw [hrhs]
    exact List.Perm.append_left _ ih
  | case4 fuel rest heq ih =>
    intro h
    have hr : ('*' :: rest).length ≤ fuel := by
      simp only [List.length_cons] at h ⊢
      omega
    specialize ih hr
    simp only [stripF, heq]
    rw [nonWs_cons_keep '/' (by decide), nonWs_cons_keep '/' (by decide)]
    exact List.perm_middle.trans (List.Perm.cons '/' ih)
  | case5 fuel c rest h1 ih =>
    intro h
    have hr : rest.length ≤ fuel := by
      simp only [List.length_cons] at h
      omega
    specialize ih hr
    simp only [stripF]
    by_cases hc : isWs c
    · rw [nonWs_cons_ws c hc, nonWs_cons_ws c hc]
      exact ih
    · have hc' : isWs c = false := by simpa using hc
      rw [nonWs_cons_keep c hc', nonWs_cons_keep c hc']
      exact List.perm_middle.trans (List.Perm.cons c ih)

/-- C4: tokenize is total (it is a plain function of the input and its scan
consumes at least one character per emitted token), and it is lossless: the
non-whitespace characters carried by the emitted tokens are a permutation of the
non-whitespace characters of the input — every such character lands in exactly
one lexeme (only the order can differ, because block comments are hoisted).
Moreover a character matched by no token category is emitted as a
single-character Undefined token and the scan continues behind it. -/
theorem tokenize_lossless :
    (∀ cs : List Char, (nonWs (tokVals (tokenize cs))).Perm (nonWs cs)) ∧
      (∀ (c : Char) (rest : List Char),
        ¬isWs c = true → ¬(c = '/' ∧ rest.head? = some '/') → ¬c = '"' →
        ¬opTest ((c :: rest).take 2) = true → ¬opTest [c] = true →
        ¬sepTest [c] = true → ¬openParenTest [c] = true →
        ¬closeParenTest [c] = true → ¬openBraceTest [c] = true →
        ¬closeBraceTest [c] = true → ¬isWordChar c = true →
        scanLine (c :: rest) = ⟨.UNDEFINED, [c]⟩ :: scanLine rest) := by
  constructor
  · intro cs
    show (nonWs (tokVals ((stripF cs.length cs).1 ++
      ((splitLines (stripF cs.length cs).2).map lineTokens).flatten))).Perm (nonWs cs)
    rw [tokVals_append, nonWs_append, linesTokens_nonWs, splitLines_flatten_nonWs]
    exact stripF_perm cs.length cs (Nat.le_refl _)
  · intro c rest h1 h2 h3 h4 h5 h6 h7 h8 h9 h10 h11
    exact scanF_undef rest.length c rest h1 h2 h3 h4 h5 h6 h7 h8 h9 h10 h11

/-- C4 (witness): the character `@` matches no category and becomes a
single-character Undefined token. -/
theorem tokenize_lossless_witness :
    scanLine ['@'] = [⟨TokenType.UNDEFINED, ['@']⟩] :=
  tokenize_lossless.2 '@' [] (by decide) (by decide) (by decide) (by decide)
    (by decide) (by decide) (by decide) (by decide) (by decide) (by decide)
    (by decide)
